import Mathlib

/-!
Verification development for the EigenAI verifiable-inference gateway of the
base-aerodrome-agent repository.

The definitions below shallow-embed the TypeScript source:
  - `src/src/eigenai/signature-verifier.ts` (reconstructSignedMessage, verifySignature),
  - the EigenAI LanguageModelV2 provider (convertPromptToMessages, doGenerate,
    doStream, callQwenForDecision, executeTradeFromDecision).

JavaScript strings are modelled by Lean `String`, JSON values by the `Json`
inductive below (numbers as exact rationals), `undefined` by `Option`, and the
external collaborators (HTTP fetch, ethers signature recovery, the quote and
swap tools) by explicit oracle parameters.  Fallible JavaScript expressions
(property access that can throw) return `Except`.
-/

/-! ## JavaScript string primitives (on the underlying character list) -/

/-- JS `s.startsWith(p)`. -/
def jsStartsWith (s p : String) : Bool :=
  p.data.isPrefixOf s.data

/-- JS `s.slice(n)` / Lean drop of the first `n` characters. -/
def jsDrop (s : String) (n : Nat) : String :=
  String.mk (s.data.drop n)

/-- Whitespace characters removed by JS `String.prototype.trim`. -/
def isJsWs (c : Char) : Bool :=
  c = ' ' || c = '\t' || c = '\n' || c = '\r'

/-- JS `s.trim()`. -/
def jsTrim (s : String) : String :=
  String.mk (((s.data.dropWhile isJsWs).reverse.dropWhile isJsWs).reverse)

/-- JS `s.toUpperCase()` (ASCII, which is all the source feeds it). -/
def jsToUpper (s : String) : String :=
  String.mk (s.data.map Char.toUpper)

/-- JS `s.toLowerCase()` (ASCII, which is all the source feeds it). -/
def jsToLower (s : String) : String :=
  String.mk (s.data.map Char.toLower)

/-- Helper for JS `s.split('\n')`: splits a character list at newlines. -/
def splitNlAux : List Char → List Char → List String
  | [], acc => [String.mk acc.reverse]
  | c :: cs, acc =>
    if c = '\n' then String.mk acc.reverse :: splitNlAux cs []
    else splitNlAux cs (c :: acc)

/-- JS `s.split('\n')` (on the empty string this yields `[""]`, as in JS). -/
def jsSplitNl (s : String) : List String :=
  splitNlAux s.data []

/-! ## JSON values

JSON numbers are modelled as exact rationals (`Rat`); the source never relies
on IEEE-754 rounding in the claims under verification. -/

inductive Json where
  | null
  | bool (b : Bool)
  | num (q : Rat)
  | str (s : String)
  | arr (elems : List Json)
  | obj (fields : List (String × Json))

/-- JS truthiness of a JSON value (`undefined` is handled by `Option` around it). -/
def jsonTruthy : Json → Bool
  | .null => false
  | .bool b => b
  | .num q => q ≠ 0
  | .str s => s ≠ ""
  | .arr _ => true
  | .obj _ => true

/-- A JavaScript runtime value: `none` is `undefined`, `some j` a JSON value. -/
abbrev JVal := Option Json

/-- Truthiness of a possibly-`undefined` value. -/
def jvTruthy : JVal → Bool
  | none => false
  | some j => jsonTruthy j

/-- Property access `v.k` with JS semantics: throws (`Except.error`) on
`undefined` and `null`, looks the key up on objects, and yields `undefined`
on other primitives. -/
def jsField : JVal → String → Except Unit JVal
  | none, _ => .error ()
  | some .null, _ => .error ()
  | some (.obj l), k => .ok ((l.find? (fun p => p.1 == k)).map Prod.snd)
  | some _, _ => .ok none

/-- Optional-chaining access `v?.k`: `undefined`/`null` short-circuit to
`undefined` instead of throwing. -/
def jsFieldOpt (v : JVal) (k : String) : JVal :=
  match v with
  | none => none
  | some .null => none
  | some (.obj l) => (l.find? (fun p => p.1 == k)).map Prod.snd
  | some _ => none

/-- Index access `v[i]` with JS semantics: throws on `undefined`/`null`,
indexes arrays, and yields `undefined` otherwise. -/
def jsIndex : JVal → Nat → Except Unit JVal
  | none, _ => .error ()
  | some .null, _ => .error ()
  | some (.arr l), i => .ok (l.get? i)
  | some _, _ => .ok none

/-- Optional-chaining index `v?.[i]`. -/
def jsIndexOpt (v : JVal) (i : Nat) : JVal :=
  match v with
  | none => none
  | some .null => none
  | some (.arr l) => l.get? i
  | some _ => none

/-! ## JSON parsing (`JSON.parse`), fuelled for termination -/

/-- Skip JSON whitespace. -/
def skipJsonWs (cs : List Char) : List Char :=
  cs.dropWhile (fun c => c = ' ' || c = '\t' || c = '\n' || c = '\r')

/-- Parse the body of a JSON string literal (after the opening quote),
handling the standard escapes. -/
def parseJsonStrBody : Nat → List Char → Except String (String × List Char)
  | 0, _ => .error "string: out of fuel"
  | _ + 1, [] => .error "unterminated string"
  | fuel + 1, c :: cs =>
    if c = '"' then .ok ("", cs)
    else if c = '\\' then
      match cs with
      | [] => .error "bad escape"
      | e :: cs2 =>
        let cont (ch : Char) (rest : List Char) :=
          (parseJsonStrBody fuel rest).map (fun p => (String.mk (ch :: p.1.data), p.2))
        if e = '"' then cont '"' cs2
        else if e = '\\' then cont '\\' cs2
        else if e = '/' then cont '/' cs2
        else if e = 'b' then cont (Char.ofNat 8) cs2
        else if e = 'f' then cont (Char.ofNat 12) cs2
        else if e = 'n' then cont '\n' cs2
        else if e = 'r' then cont '\r' cs2
        else if e = 't' then cont '\t' cs2
        else if e = 'u' then
          match cs2 with
          | h1 :: h2 :: h3 :: h4 :: cs3 =>
            let hex (c : Char) : Option Nat :=
              if '0' ≤ c ∧ c ≤ '9' then some (c.toNat - '0'.toNat)
              else if 'a' ≤ c ∧ c ≤ 'f' then some (c.toNat - 'a'.toNat + 10)
              else if 'A' ≤ c ∧ c ≤ 'F' then some (c.toNat - 'A'.toNat + 10)
              else none
            match hex h1, hex h2, hex h3, hex h4 with
            | some a, some b, some c3, some d =>
              cont (Char.ofNat (((a * 16 + b) * 16 + c3) * 16 + d)) cs3
            | _, _, _, _ => .error "bad unicode escape"
          | _ => .error "bad unicode escape"
        else .error "bad escape"
    else (parseJsonStrBody fuel cs).map (fun p => (String.mk (c :: p.1.data), p.2))

/-- Digits prefix of a character list. -/
def takeDigits (cs : List Char) : List Char × List Char :=
  (cs.takeWhile Char.isDigit, cs.dropWhile Char.isDigit)

/-- Natural number denoted by a digit list. -/
def natOfDigits (ds : List Char) : Nat :=
  ds.foldl (fun acc c => acc * 10 + (c.toNat - '0'.toNat)) 0

/-!  Batteries marks `Rat.add`/`Rat.mul`/`Rat.sub`/`Rat.inv` irreducible,
which would block kernel evaluation of concrete runs; the helpers below
compute the same rationals through `mkRat`, which does reduce. -/

/-- Reducible rational addition. -/
def ratAdd (a b : Rat) : Rat :=
  mkRat (a.num * b.den + b.num * a.den) (a.den * b.den)

/-- Reducible rational multiplication. -/
def ratMul (a b : Rat) : Rat :=
  mkRat (a.num * b.num) (a.den * b.den)

/-- Reducible rational subtraction. -/
def ratSub (a b : Rat) : Rat :=
  mkRat (a.num * b.den - b.num * a.den) (a.den * b.den)

/-- Reducible rational division (division by zero yields zero, unreachable
in the modelled code paths). -/
def ratDiv (a b : Rat) : Rat :=
  if b.num < 0 then mkRat (-(a.num * b.den)) (a.den * b.num.natAbs)
  else mkRat (a.num * b.den) (a.den * b.num.natAbs)

/-- Parse a JSON number into an exact rational. -/
def parseJsonNum (cs : List Char) : Except String (Rat × List Char) :=
  let (neg, cs1) := match cs with
    | '-' :: t => (true, t)
    | _ => (false, cs)
  let (ip, cs2) := takeDigits cs1
  if ip.isEmpty then .error "bad number"
  else
    let (fp, cs3) := match cs2 with
      | '.' :: t => takeDigits t
      | _ => ([], cs2)
    let (expNeg, expDs, cs5) := match cs3 with
      | 'e' :: t | 'E' :: t =>
        match t with
        | '-' :: t2 => let (ds, r) := takeDigits t2; (true, ds, r)
        | '+' :: t2 => let (ds, r) := takeDigits t2; (false, ds, r)
        | _ => let (ds, r) := takeDigits t; (false, ds, r)
      | _ => (false, [], cs3)
    let mant : Rat := mkRat (natOfDigits (ip ++ fp)) (10 ^ fp.length)
    let e := natOfDigits expDs
    let q := if expNeg then ratDiv mant (mkRat (10 ^ e) 1)
      else ratMul mant (mkRat (10 ^ e) 1)
    .ok (if neg then Rat.neg q else q, cs5)

mutual

/-- Parse one JSON value (fuelled). -/
def parseJsonVal : Nat → List Char → Except String (Json × List Char)
  | 0, _ => .error "out of fuel"
  | fuel + 1, cs =>
    match skipJsonWs cs with
    | [] => .error "unexpected end"
    | c :: rest =>
      if c = 'n' then
        match rest with
        | 'u' :: 'l' :: 'l' :: r => .ok (.null, r)
        | _ => .error "bad literal"
      else if c = 't' then
        match rest with
        | 'r' :: 'u' :: 'e' :: r => .ok (.bool true, r)
        | _ => .error "bad literal"
      else if c = 'f' then
        match rest with
        | 'a' :: 'l' :: 's' :: 'e' :: r => .ok (.bool false, r)
        | _ => .error "bad literal"
      else if c = '"' then
        (parseJsonStrBody (rest.length + 1) rest).map (fun p => (.str p.1, p.2))
      else if c = '[' then
        match skipJsonWs rest with
        | ']' :: r => .ok (.arr [], r)
        | _ => parseJsonArrTail fuel rest []
      else if c = '\x7b' then
        match skipJsonWs rest with
        | '\x7d' :: r => .ok (.obj [], r)
        | _ => parseJsonObjTail fuel rest []
      else if c = '-' ∨ c.isDigit then
        (parseJsonNum (c :: rest)).map (fun p => (.num p.1, p.2))
      else .error "unexpected character"

/-- Parse the elements of a non-empty JSON array (fuelled). -/
def parseJsonArrTail : Nat → List Char → List Json → Except String (Json × List Char)
  | 0, _, _ => .error "out of fuel"
  | fuel + 1, cs, acc =>
    match parseJsonVal fuel cs with
    | .error e => .error e
    | .ok (v, rest) =>
      match skipJsonWs rest with
      | ',' :: r => parseJsonArrTail fuel r (v :: acc)
      | ']' :: r => .ok (.arr (v :: acc).reverse, r)
      | _ => .error "expected comma or bracket"

/-- Parse the members of a non-empty JSON object (fuelled). -/
def parseJsonObjTail : Nat → List Char → List (String × Json) →
    Except String (Json × List Char)
  | 0, _, _ => .error "out of fuel"
  | fuel + 1, cs, acc =>
    match skipJsonWs cs with
    | '"' :: rest =>
      match parseJsonStrBody (rest.length + 1) rest with
      | .error e => .error e
      | .ok (k, rest2) =>
        match skipJsonWs rest2 with
        | ':' :: rest3 =>
          match parseJsonVal fuel rest3 with
          | .error e => .error e
          | .ok (v, rest4) =>
            match skipJsonWs rest4 with
            | ',' :: r => parseJsonObjTail fuel r ((k, v) :: acc)
            | '\x7d' :: r => .ok (.obj ((k, v) :: acc).reverse, r)
            | _ => .error "expected comma or brace"
        | _ => .error "expected colon"
    | _ => .error "expected key"

end

/-- JS `JSON.parse` on a string: parse one value and require only whitespace
after it. -/
def parseJson (s : String) : Except String Json :=
  match parseJsonVal (4 * s.data.length + 16) s.data with
  | .error e => .error e
  | .ok (v, rest) =>
    match skipJsonWs rest with
    | [] => .ok v
    | _ => .error "trailing characters"

/-! ## JSON serialisation (`JSON.stringify`) -/

/-- Escape one character for a JSON string literal. -/
def escapeJsonChar (c : Char) : List Char :=
  if c = '"' then ['\\', '"']
  else if c = '\\' then ['\\', '\\']
  else if c = '\n' then ['\\', 'n']
  else if c = '\r' then ['\\', 'r']
  else if c = '\t' then ['\\', 't']
  else [c]

/-- Serialise a string as a JSON string literal. -/
def stringifyStr (s : String) : String :=
  String.mk ('"' :: s.data.flatMap escapeJsonChar ++ ['"'])

/-- Decimal digits of the fractional expansion of `n / d` (fuelled; JSON
numbers produced by the source are short). -/
def fracDigits : Nat → Nat → Nat → List Char
  | 0, _, _ => []
  | _ + 1, 0, _ => []
  | fuel + 1, n, d =>
    let n10 := n * 10
    Char.ofNat (n10 / d + '0'.toNat) :: fracDigits fuel (n10 % d) d

/-- Render a rational the way JS renders the corresponding number (exact for
the integers the source actually serialises). -/
def numToString (q : Rat) : String :=
  let sign := if q < 0 then "-" else ""
  let n := q.num.natAbs
  let d := q.den
  let ipart := toString (n / d)
  let rest := n % d
  if rest = 0 then sign ++ ipart
  else sign ++ ipart ++ "." ++ String.mk (fracDigits 17 rest d)

mutual

/-- JS `JSON.stringify` (insertion-ordered object keys, no added whitespace). -/
def stringifyJson : Json → String
  | .null => "null"
  | .bool b => if b then "true" else "false"
  | .num q => numToString q
  | .str s => stringifyStr s
  | .arr l => "[" ++ stringifyList l ++ "]"
  | .obj l => "\x7b" ++ stringifyFields l ++ "\x7d"

/-- Comma-separated serialisation of array elements. -/
def stringifyList : List Json → String
  | [] => ""
  | [j] => stringifyJson j
  | j :: rest => stringifyJson j ++ "," ++ stringifyList rest

/-- Comma-separated serialisation of object members. -/
def stringifyFields : List (String × Json) → String
  | [] => ""
  | [(k, v)] => stringifyStr k ++ ":" ++ stringifyJson v
  | (k, v) :: rest => stringifyStr k ++ ":" ++ stringifyJson v ++ "," ++ stringifyFields rest

end

/-! ## Signature Verifier (`src/src/eigenai/signature-verifier.ts`) -/

/-- A chat message as the verifier sees it (`content` may be null). -/
structure ChatMessage where
  role : String
  content : Option String
deriving DecidableEq

/-- The request fields the verifier reads. -/
structure ChatCompletionRequest where
  messages : List ChatMessage
deriving DecidableEq

/-- One response choice. -/
structure ResponseChoice where
  message : ChatMessage
deriving DecidableEq

/-- The response fields the verifier reads. -/
structure ChatCompletionResponse where
  model : String
  choices : List ResponseChoice
  signature : String
deriving DecidableEq

/-- `reconstructFullPrompt`: every message content (falsy treated as empty)
concatenated in order with no separators. -/
def reconstructFullPrompt (messages : List ChatMessage) : String :=
  String.join (messages.map (fun m => m.content.getD ""))

/-- `reconstructFullOutput`: every choice message content concatenated in
order with no separators. -/
def reconstructFullOutput (choices : List ResponseChoice) : String :=
  String.join (choices.map (fun c => c.message.content.getD ""))

/-- `reconstructSignedMessage`: `chainId + model + fullPrompt + fullOutput`. -/
def reconstructSignedMessage (request : ChatCompletionRequest)
    (response : ChatCompletionResponse) (chainId : String) : String :=
  chainId ++ response.model ++ reconstructFullPrompt request.messages ++
    reconstructFullOutput response.choices

/-- Inputs of `verifySignature`. -/
structure SignatureVerificationData where
  request : ChatCompletionRequest
  response : ChatCompletionResponse
  chainId : String
  expectedSigner : String
deriving DecidableEq

/-- Result of `verifySignature`. -/
structure SignatureVerificationResult where
  isValid : Bool
  recoveredAddress : String
  expectedSigner : String
  reconstructedMessage : String
  error : Option String
deriving DecidableEq

/-- Signature normalisation inside `verifySignature`: ensure a `0x` hex tag
at the front. -/
def normalizeSigHex (s : String) : String :=
  if jsStartsWith s "0x" then s else "0x" ++ s

/-- `verifySignature`.  `ethers.verifyMessage` is an oracle parameter
`verifyMessage`; `Except.error e` models a thrown exception whose message is
`e`.  The `try/catch` of the source becomes the match on the oracle result. -/
def verifySignature (data : SignatureVerificationData)
    (verifyMessage : String → String → Except String String) :
    SignatureVerificationResult :=
  let reconstructedMessage :=
    reconstructSignedMessage data.request data.response data.chainId
  let signature := normalizeSigHex data.response.signature
  match verifyMessage reconstructedMessage signature with
  | .ok recoveredAddress =>
    { isValid := jsToLower recoveredAddress == jsToLower data.expectedSigner
      recoveredAddress := recoveredAddress
      expectedSigner := data.expectedSigner
      reconstructedMessage := reconstructedMessage
      error := none }
  | .error e =>
    { isValid := false
      recoveredAddress := "ERROR"
      expectedSigner := data.expectedSigner
      reconstructedMessage := ""
      error := some e }

/-- A recovery oracle that distinguishes the two normalised signatures a
double-prefixed signature gives rise to. -/
def c9DistinguishingOracle : String → String → Except String String :=
  fun _ sig => if sig = "0x0xab" then .ok "A" else .ok "B"

/-! ## Message Adapter (`convertPromptToMessages` in the EigenAI provider) -/

/-- The `input` of a tool-call part as the AI SDK hands it over: already a
string, or a JSON value to be stringified (`typeof c.input === 'string' ?
c.input : JSON.stringify(c.input)`). -/
inductive ToolCallInput where
  | strInput (s : String)
  | jsonInput (j : Json)

/-- The `arguments` string the adapter stores for a tool call. -/
def toolCallArgString : ToolCallInput → String
  | .strInput s => s
  | .jsonInput j => stringifyJson j

/-- One content item of an assistant entry. -/
inductive AssistantPart where
  | text (t : String)
  | toolCall (toolCallId toolName : String) (input : ToolCallInput)
  | otherPart

/-- One content item of a user entry (non-text items contribute `""`). -/
inductive UserPart where
  | text (t : String)
  | otherPart

/-- One content item of a tool entry; the result `output` is a JSON runtime
value (string, array of parts, or anything else). -/
inductive ToolPart where
  | toolResult (toolCallId : String) (output : Json)
  | otherPart

/-- One entry of the accumulated-turn prompt. -/
inductive PromptPart where
  | system (content : String)
  | user (content : List UserPart)
  | assistant (content : List AssistantPart)
  | tool (content : List ToolPart)

/-- An entry of a wire message's `tool_calls` array (the `type: 'function'`
tag is implicit). -/
structure ToolCallRec where
  id : String
  name : String
  arguments : String
deriving DecidableEq

/-- A wire-format EigenAI chat message.  An absent `tool_calls` field is the
empty list; an absent `tool_call_id` is `none`. -/
structure EigenAIMessage where
  role : String
  content : Option String
  tool_calls : List ToolCallRec := []
  tool_call_id : Option String := none
deriving DecidableEq

/-- Rendering of one element of an array-valued tool-result output
(`outputPart.type === 'text' && outputPart.text ? outputPart.text :
JSON.stringify(outputPart)`). -/
def toolResultPartStr (p : Json) : String :=
  match jsFieldOpt (some p) "type", jsFieldOpt (some p) "text" with
  | some (.str "text"), some (.str t) => if t ≠ "" then t else stringifyJson p
  | _, _ => stringifyJson p

/-- The content string stored for one tool result: a string output verbatim,
an array output with its parts rendered and joined, anything else
stringified. -/
def toolOutputContentStr (output : Json) : String :=
  match output with
  | .str s => s
  | .arr parts => String.join (parts.map toolResultPartStr)
  | j => stringifyJson j

/-- JS `Map.set`: overwrite the value at an existing key in place, otherwise
append the binding. -/
def mapSet (m : List (String × String)) (k v : String) : List (String × String) :=
  if m.any (fun p => p.1 == k) then
    m.map (fun p => if p.1 == k then (k, v) else p)
  else m ++ [(k, v)]

/-- JS `Map.get` (as an `Option`). -/
def mapGet (m : List (String × String)) (k : String) : Option String :=
  (m.find? (fun p => p.1 == k)).map Prod.snd

/-- The mutable state of `convertPromptToMessages`' first pass. -/
structure ConvertState where
  messages : List EigenAIMessage
  toolCalls : List ToolCallRec
  toolResults : List (String × String)

/-- First-pass handling of an assistant entry's content items: tool calls are
collected in order; a non-blank text item becomes a plain assistant message
only while the collected tool-call list is still empty. -/
def processAssistantContent : ConvertState → List AssistantPart → ConvertState
  | st, [] => st
  | st, c :: items =>
    processAssistantContent
      (match c with
       | .toolCall id name input =>
         { st with toolCalls := st.toolCalls ++ [⟨id, name, toolCallArgString input⟩] }
       | .text t =>
         if jsTrim t != "" && st.toolCalls.isEmpty then
           { st with messages := st.messages ++ [⟨"assistant", some t, [], none⟩] }
         else st
       | .otherPart => st) items

/-- First-pass handling of a tool entry's content items: results are stored
in the lookup keyed by tool-call id. -/
def processToolContent : ConvertState → List ToolPart → ConvertState
  | st, [] => st
  | st, c :: items =>
    processToolContent
      (match c with
       | .toolResult id output =>
         { st with toolResults := mapSet st.toolResults id (toolOutputContentStr output) }
       | .otherPart => st) items

/-- One first-pass step of `convertPromptToMessages`. -/
def convertStep (st : ConvertState) : PromptPart → ConvertState
  | .system content => { st with messages := st.messages ++ [⟨"system", some content, [], none⟩] }
  | .user content =>
    let contentStr := String.join (content.map (fun c =>
      match c with
      | .text t => t
      | .otherPart => ""))
    { st with messages := st.messages ++ [⟨"user", some contentStr, [], none⟩] }
  | .assistant items => processAssistantContent st items
  | .tool items => processToolContent st items

/-- The whole first pass. -/
def convertFirstPass (prompt : List PromptPart) : ConvertState :=
  prompt.foldl convertStep ⟨[], [], []⟩

/-- Second pass: each collected tool call becomes one assistant message with
that single call, immediately followed by the matching tool-result message
when the lookup holds one. -/
def interleaveCalls (calls : List ToolCallRec) (results : List (String × String)) :
    List EigenAIMessage :=
  calls.flatMap (fun tc =>
    ⟨"assistant", none, [tc], none⟩ ::
      (match mapGet results tc.id with
       | some r => [⟨"tool", some r, [], some tc.id⟩]
       | none => []))

/-- `convertPromptToMessages`. -/
def convertPromptToMessages (prompt : List PromptPart) : List EigenAIMessage :=
  let st := convertFirstPass prompt
  st.messages ++ interleaveCalls st.toolCalls st.toolResults

/-- Specification view of the collected tool calls: all tool-call items of
all assistant entries, in order. -/
def collectToolCalls (prompt : List PromptPart) : List ToolCallRec :=
  prompt.flatMap (fun p =>
    match p with
    | .assistant items =>
      items.filterMap (fun c =>
        match c with
        | .toolCall id name input => some ⟨id, name, toolCallArgString input⟩
        | _ => none)
    | _ => [])

/-- The tool calls an assistant entry contributes. -/
def assistantCallsOf (items : List AssistantPart) : List ToolCallRec :=
  items.filterMap (fun c =>
    match c with
    | .toolCall id name input => some ⟨id, name, toolCallArgString input⟩
    | _ => none)

/-- The system/user messages a prompt passes through unchanged. -/
def sysUserMsgs (l : List PromptPart) : List EigenAIMessage :=
  l.filterMap (fun p =>
    match p with
    | .system c => some ⟨"system", some c, [], none⟩
    | .user content => some ⟨"user",
        some (String.join (content.map (fun c =>
          match c with
          | .text t => t
          | .otherPart => ""))), [], none⟩
    | _ => none)

/-- Keep only system and user wire messages. -/
def sysUserB (m : EigenAIMessage) : Bool :=
  m.role == "system" || m.role == "user"

/-! ## Streaming Client (`doStream`'s SSE pull loop) -/

/-- JS string coercion of a JSON value (exact for the primitives; the
array/object cases — which a well-formed stream never feeds into string
positions — are approximated). -/
def jsToStringPrim : Json → String
  | .null => "null"
  | .bool b => if b then "true" else "false"
  | .num q => numToString q
  | .str s => s
  | .arr l => String.intercalate "," (l.map stringifyJson)
  | .obj _ => "[object Object]"

/-- Coercion of a possibly-`undefined` value to a string. -/
def jvString : JVal → String
  | none => "undefined"
  | some j => jsToStringPrim j

/-- Numeric reading of a possibly-`undefined` value (`none` stands for the
`undefined`/`NaN` outcomes, which the claims never exercise). -/
def jvNum : JVal → Option Rat
  | some (.num q) => some q
  | _ => none

/-- JS `+` on two possibly-missing numbers (`undefined + x` is `NaN`,
modelled as `none`). -/
def jvAdd : Option Rat → Option Rat → Option Rat
  | some x, some y => some (ratAdd x y)
  | _, _ => none

/-- The accumulated usage of one streaming call. -/
structure StreamUsage where
  inputTokens : Option Rat
  outputTokens : Option Rat
  totalTokens : Option Rat
deriving DecidableEq

/-- The mutable state of one streaming call. -/
structure StreamState where
  buffer : String
  fullContent : String
  finalSignature : JVal
  finalUsage : StreamUsage
  responseModel : JVal
  responseId : JVal

/-- The stream parts the pull loop can emit (verification capture, a side
effect on the `onVerification` callback, is not an emitted part). -/
inductive StreamEvent where
  | streamStart
  | textStart (id : String)
  | textDelta (id : String) (delta : String)
  | textEnd (id : String)
  | responseMetadata (id : JVal) (modelId : JVal)
  | finish (usage : StreamUsage) (signature : JVal)

/-- Process one complete buffered line: only event-data lines are read, the
`[DONE]` sentinel is skipped, a JSON parse failure drops the line, and a
parsed chunk updates model/id/signature/usage and emits a text delta for
truthy delta content.  An exception thrown mid-line (indexing `choices` on a
chunk without them) keeps the updates already applied, as the `try/catch`
does. -/
def processDataLine (st : StreamState) (textPartId : String) (line : String) :
    StreamState × List StreamEvent :=
  if !(jsStartsWith line "data: ") then (st, [])
  else
    let data := jsTrim (jsDrop line 6)
    if data == "[DONE]" then (st, [])
    else
      match parseJson data with
      | .error _ => (st, [])
      | .ok chunk =>
        match jsField (some chunk) "model" with
        | .error _ => (st, [])
        | .ok mv =>
          match jsField (some chunk) "id" with
          | .error _ => ({ st with responseModel := mv }, [])
          | .ok idv =>
            let st1 := { st with responseModel := mv, responseId := idv }
            match (jsField (some chunk) "choices").bind (fun cv => jsIndex cv 0) with
            | .error _ => (st1, [])
            | .ok elem =>
              let contentV := jsFieldOpt (jsFieldOpt elem "delta") "content"
              let (st2, evs) :=
                if jvTruthy contentV then
                  ({ st1 with fullContent := st1.fullContent ++ jvString contentV },
                    [StreamEvent.textDelta textPartId (jvString contentV)])
                else (st1, [])
              let sv := jsFieldOpt (some chunk) "signature"
              let st3 := if jvTruthy sv then { st2 with finalSignature := sv } else st2
              let uv := jsFieldOpt (some chunk) "usage"
              let st4 :=
                if jvTruthy uv then
                  let p := jvNum (jsFieldOpt uv "prompt_tokens")
                  let c := jvNum (jsFieldOpt uv "completion_tokens")
                  { st3 with finalUsage := ⟨p, c, jvAdd p c⟩ }
                else st3
              (st4, evs)

/-- Process one network chunk: append it to the buffer, split on newlines,
retain the final (possibly incomplete) segment as the new buffer, and run
every complete line through `processDataLine` in order. -/
def processChunk (textPartId : String) (st : StreamState) (chunkStr : String) :
    StreamState × List StreamEvent :=
  let lines := jsSplitNl (st.buffer ++ chunkStr)
  let toProcess := lines.dropLast
  toProcess.foldl
    (fun acc line =>
      let r := processDataLine acc.1 textPartId line
      (r.1, acc.2 ++ r.2))
    ({ st with buffer := (lines.getLast?).getD "" }, [])

/-- Events emitted at transport end-of-stream: text end, response metadata,
and the terminal finish with the accumulated usage and signature. -/
def processDone (st : StreamState) (textPartId : String) : List StreamEvent :=
  [StreamEvent.textEnd textPartId,
   StreamEvent.responseMetadata st.responseId st.responseModel,
   StreamEvent.finish st.finalUsage st.finalSignature]

/-- The initial stream state of one call. -/
def initStreamState (modelId : String) : StreamState :=
  ⟨"", "", some (.str ""), ⟨some 0, some 0, some 0⟩, some (.str modelId), some (.str "")⟩

/-- The full event sequence of one streaming call fed the given network
chunks and then end-of-stream. -/
def runStream (modelId textPartId : String) (chunks : List String) :
    List StreamEvent :=
  let r := chunks.foldl
    (fun acc c =>
      let r := processChunk textPartId acc.1 c
      (r.1, acc.2 ++ r.2))
    (initStreamState modelId, [])
  [StreamEvent.streamStart, StreamEvent.textStart textPartId] ++ r.2 ++
    processDone r.1 textPartId

/-- The text-delta payloads of an event sequence, in order. -/
def deltaPayloads (events : List StreamEvent) : List String :=
  events.filterMap (fun e =>
    match e with
    | .textDelta _ d => some d
    | _ => none)

/-- Whether the last event of a sequence is a finish event. -/
def lastIsFinish (events : List StreamEvent) : Bool :=
  match events.getLast? with
  | some (.finish _ _) => true
  | _ => false

/-! ## Decision Fallback Engine (`executeTradeFromDecision`,
`callQwenForDecision`, and the budget routing in `doGenerate`) -/

/-- The reasoning model used once the tool budget is exhausted. -/
def REASONING_MODEL : String := "qwen3-32b-128k-bf16"

/-- The tool-result budget of `doGenerate`. -/
def MAX_TOOL_RESULTS : Nat := 8

/-- Index (from the front) of the last occurrence of a character. -/
def lastIdxOf (c : Char) (cs : List Char) : Option Nat :=
  match cs.reverse.findIdx? (fun x => x = c) with
  | some k => some (cs.length - 1 - k)
  | none => none

/-- The regex match `/\x7b[\s\S]*\x7d/` of the source: the slice from the
first opening brace to the last closing brace, provided the latter comes
after the former. -/
def braceSliceMatch (s : String) : Option String :=
  match s.data.findIdx? (fun ch => ch = '\x7b'), lastIdxOf '\x7d' s.data with
  | some i, some j =>
    if i < j then some (String.mk ((s.data.drop i).take (j - i + 1))) else none
  | _, _ => none

/-- JS `parseFloat` (on the numeric outputs the quote tool produces). -/
def parseFloatJs (s : String) : Option Rat :=
  match parseJsonNum (jsTrim s).data with
  | .ok (q, _) => some q
  | .error _ => none

/-- JS numeric coercion of a runtime value (`none` models `NaN`). -/
def jvToNumber : JVal → Option Rat
  | none => none
  | some .null => some 0
  | some (.bool b) => some (if b then 1 else 0)
  | some (.num q) => some q
  | some (.str s) =>
    if jsTrim s = "" then some 0
    else
      match parseJsonNum (jsTrim s).data with
      | .ok (q, rest) => if rest = [] then some q else none
      | .error _ => none
  | some (.arr _) => none
  | some (.obj _) => none

/-- The comparison `amountUsd < 1` (`NaN < 1` is false). -/
def jsLtOne (v : JVal) : Bool :=
  match jvToNumber v with
  | some q => decide (q < 1)
  | none => false

/-- `v?.toUpperCase()`: `undefined`/`null` stay `undefined`; a string is
uppercased; caling the method on any other value throws. -/
def jsUpperOpt : JVal → Except Unit (Option String)
  | none => .ok none
  | some .null => .ok none
  | some (.str s) => .ok (some (jsToUpper s))
  | some _ => .error ()

/-- Truthiness of an optional string (`undefined` and `""` are falsy). -/
def optStrTruthy : Option String → Bool
  | some s => s != ""
  | none => false

/-- JS `Number.prototype.toFixed(8)` on an exact rational. -/
def toFixed8 (q : Rat) : String :=
  let n : Int := (ratAdd (ratMul q (mkRat (10 ^ 8) 1)) (mkRat 1 2)).floor
  let sign := if n < 0 then "-" else ""
  let a := n.natAbs
  let ip := a / 10 ^ 8
  let fp := a % 10 ^ 8
  let fpStr := toString fp
  sign ++ toString ip ++ "." ++ String.mk (List.replicate (8 - fpStr.length) '0') ++ fpStr

/-- Arguments of one `getQuoteTool.execute` call. -/
structure QuoteArgs where
  tokenIn : String
  tokenOut : String
  amountIn : String
  via : Option String
deriving DecidableEq

/-- The fields of a quote result the engine reads. -/
structure QuoteRes where
  success : Bool
  amountOut : Option String
  error : Option String
deriving DecidableEq

/-- Arguments of one `executeSwapTool.execute` call. -/
structure SwapArgs where
  tokenIn : String
  tokenOut : String
  amountIn : String
  minAmountOut : String
  slippagePercent : Rat
  via : Option String
deriving DecidableEq

/-- The fields of a swap result the engine reads (an absent `dryRun` is
falsy, hence `false`). -/
structure SwapRes where
  success : Bool
  txHash : Option String
  dryRun : Bool
  error : Option String
deriving DecidableEq

/-- One network/tool invocation performed by the provider. -/
inductive NetCall where
  | primaryModel
  | reasoningModel
  | quoteCall (args : QuoteArgs)
  | swapCall (args : SwapArgs)
deriving DecidableEq

/-- A template-literal interpolation of a possibly-undefined string. -/
def tmplOpt (o : Option String) : String :=
  o.getD "undefined"

/-- JS property assignment `obj[k] = v`: overwrite in place or append; a
no-op on non-objects. -/
def setObjField (j : Json) (k : String) (v : Json) : Json :=
  match j with
  | .obj l =>
    .obj (if l.any (fun p => p.1 == k) then
        l.map (fun p => if p.1 == k then (k, v) else p)
      else l ++ [(k, v)])
  | _ => j

/-- The `tradeDecision.via?.toUpperCase() || undefined` normalisation: an
empty (falsy) uppercased via becomes `undefined`. -/
def viaNorm : Option String → Option String
  | some s => if s = "" then none else some s
  | none => none

/-- The source's `decision.trade_decisions![0].rationale = r` mutation. -/
def setFirstRationale (decision : Json) (r : String) : Json :=
  match jsFieldOpt (some decision) "trade_decisions" with
  | some (.arr (first :: rest)) =>
    setObjField decision "trade_decisions"
      (.arr (setObjField first "rationale" (.str r) :: rest))
  | _ => decision

/-- Everything `executeTradeFromDecision` does after `JSON.parse` succeeds:
examine `trade_decisions[0]`, gate on action/amount/token, then quote and
swap through the oracles, annotating the first element's rationale with the
outcome.  Returns the updated decision object (`none` is the `return null`
paths) and the tool calls made, in order. -/
def runTrade (decision : Json) (quote : QuoteArgs → QuoteRes)
    (swap : SwapArgs → SwapRes) : Option Json × List NetCall :=
  let tdv := jsIndexOpt (jsFieldOpt (some decision) "trade_decisions") 0
  if !jvTruthy tdv then (none, [])
  else
    match jsUpperOpt (jsFieldOpt tdv "action") with
    | .error _ => (none, [])
    | .ok action =>
      if !(action == some "BUY" || action == some "SELL") then (none, [])
      else
        let amountV := jsFieldOpt tdv "amount_usd"
        if !jvTruthy amountV || jsLtOne amountV then (none, [])
        else
          match jsUpperOpt (jsFieldOpt tdv "token") with
          | .error _ => (none, [])
          | .ok tokenOpt =>
            if !optStrTruthy tokenOpt then (none, [])
            else
              match jsUpperOpt (jsFieldOpt tdv "via") with
              | .error _ => (none, [])
              | .ok viaOpt =>
                let via : Option String := viaNorm viaOpt
                let token := tokenOpt.getD ""
                let tokenIn := if action == some "BUY" then "USDC" else token
                let tokenOut := if action == some "BUY" then token else "USDC"
                let rationale := jvString (jsFieldOpt tdv "rationale")
                let quoteArgs : QuoteArgs := ⟨tokenIn, tokenOut, jvString amountV, via⟩
                let quoteResult := quote quoteArgs
                if !quoteResult.success || !optStrTruthy quoteResult.amountOut then
                  (some (setFirstRationale decision
                      (rationale ++ " [EXECUTION FAILED: Quote error - " ++
                        tmplOpt quoteResult.error ++ "]")),
                    [.quoteCall quoteArgs])
                else
                  let minAmountOut :=
                    match parseFloatJs (quoteResult.amountOut.getD "") with
                    | some q => toFixed8 (ratMul q (ratSub (mkRat 1 1) (ratDiv (mkRat 1 1) (mkRat 100 1))))
                    | none => "NaN"
                  let swapArgs : SwapArgs :=
                    ⟨tokenIn, tokenOut, jvString amountV, minAmountOut, 1, via⟩
                  let swapResult := swap swapArgs
                  let newRationale :=
                    if swapResult.success && optStrTruthy swapResult.txHash then
                      rationale ++ " [EXECUTED: TX " ++ swapResult.txHash.getD "" ++ "]"
                    else if swapResult.dryRun then
                      rationale ++ " [DRY RUN: Trade simulated only]"
                    else
                      rationale ++ " [EXECUTION FAILED: " ++ tmplOpt swapResult.error ++ "]"
                  (some (setFirstRationale decision newRationale),
                    [.quoteCall quoteArgs, .swapCall swapArgs])

/-- `executeTradeFromDecision`: falsy content and a missing/unparsable brace
slice yield `null` with no tool calls; otherwise the parsed decision is run
through `runTrade` and the updated decision is re-serialised. -/
def executeTradeFromDecision (qwenContent : String)
    (quote : QuoteArgs → QuoteRes) (swap : SwapArgs → SwapRes) :
    Option String × List NetCall :=
  if qwenContent == "" then (none, [])
  else
    match braceSliceMatch qwenContent with
    | none => (none, [])
    | some slice =>
      match parseJson slice with
      | .error _ => (none, [])
      | .ok decision =>
        let r := runTrade decision quote swap
        (r.1.map stringifyJson, r.2)

/-- Outcome of the one `fetch` to the reasoning model. -/
inductive QwenOutcome where
  | thrown (msg : String)
  | httpErr (status : Nat) (body : String)
  | ok (data : Json)

/-- The external collaborators of the fallback engine. -/
structure FallbackOracle where
  qwen : QwenOutcome
  quote : QuoteArgs → QuoteRes
  swap : SwapArgs → SwapRes

/-- The safe default returned when the reasoning model answers non-2xx. -/
def qwenHttpFailDecision : Json :=
  .obj [("reasoning", .str "Reasoning model unavailable. Defaulting to HOLD."),
    ("trade_decisions", .arr [.obj [("token", .str "ALL"),
      ("action", .str "HOLD"), ("amount_usd", .num 0),
      ("rationale", .str "Reasoning model call failed - holding positions for safety")]])]

/-- The safe default returned when the reasoning-model call throws. -/
def qwenThrownDecision : Json :=
  .obj [("reasoning", .str "Reasoning model error. Defaulting to HOLD."),
    ("trade_decisions", .arr [.obj [("token", .str "ALL"),
      ("action", .str "HOLD"), ("amount_usd", .num 0),
      ("rationale", .str "Error calling reasoning model - holding for safety")]])]

/-- The safe default returned when the reasoning model answers empty. -/
def qwenEmptyDecision : Json :=
  .obj [("reasoning", .str "Qwen returned empty response. Defaulting to HOLD."),
    ("trade_decisions", .arr [.obj [("token", .str "ALL"),
      ("action", .str "HOLD"), ("amount_usd", .num 0),
      ("rationale", .str "Empty response from reasoning model")]])]

/-- JS `a || b || c` on the engine's three candidate return strings. -/
def jsOrStr (a : Option String) (b c : String) : String :=
  match a with
  | some s => if s != "" then s else if b != "" then b else c
  | none => if b != "" then b else c

/-- `callQwenForDecision`.  The decision-prompt construction and the
verification-capture side effect feed only the network request and the
`onVerification` callback, which the oracle abstracts; what the function
returns to `doGenerate` and which external calls it makes are modelled
exactly. -/
def callQwenForDecision (_msgs : List EigenAIMessage) (oracle : FallbackOracle) :
    String × List NetCall :=
  match oracle.qwen with
  | .httpErr _ _ => (stringifyJson qwenHttpFailDecision, [.reasoningModel])
  | .thrown _ => (stringifyJson qwenThrownDecision, [.reasoningModel])
  | .ok data =>
    let qwenContent :=
      match jsFieldOpt (jsFieldOpt
          (jsIndexOpt (jsFieldOpt (some data) "choices") 0) "message") "content" with
      | some (.str s) => s
      | some .null => ""
      | none => ""
      | some j => jsToStringPrim j
    let r := executeTradeFromDecision qwenContent oracle.quote oracle.swap
    (jsOrStr r.1 qwenContent (stringifyJson qwenEmptyDecision),
      NetCall.reasoningModel :: r.2)

/-- Number of tool-result messages in a wire conversation. -/
def toolResultCount (msgs : List EigenAIMessage) : Nat :=
  (msgs.filter (fun m => m.role == "tool")).length

/-- Whether any assistant message's tool calls include `executeSwap`. -/
def executeSwapCalled (msgs : List EigenAIMessage) : Bool :=
  msgs.any (fun m =>
    m.role == "assistant" && m.tool_calls.any (fun tc => tc.name == "executeSwap"))

/-- The fixed decision `doGenerate` synthesizes when the budget is reached
and `executeSwap` was already called. -/
def executedDecision : Json :=
  .obj [("reasoning", .str "Trade was executed via executeSwap tool call."),
    ("trade_decisions", .arr [.obj [("token", .str "EXECUTED"),
      ("action", .str "EXECUTED"), ("amount_usd", .num 0),
      ("rationale", .str "Trade executed - see swap transaction logs for details")]])]

/-- Outcome of the one `fetch` to the primary model. -/
inductive PrimaryOutcome where
  | httpErr (status : Nat)
  | ok (data : Json)

/-- What `doGenerate` hands back: the decision/completion text and the
response model id (other result fields carry no claim content). -/
structure GenOutcome where
  text : String
  responseModelId : String
deriving DecidableEq

/-- Error surface of `doGenerate`: an `APICallError` with a status, or an
uncaught runtime exception. -/
inductive GenError where
  | apiError (status : Nat)
  | thrown
deriving DecidableEq

/-- `doGenerate`: wire-convert the prompt; at or above the tool-result
budget issue no primary request — short-circuit to the fixed EXECUTED
decision if `executeSwap` already ran, else delegate to the reasoning
model; below budget issue the one primary request (its tool-call content
extraction carries no claim content and is reduced to the text field). -/
def doGenerate (prompt : List PromptPart) (modelId : String)
    (oracle : FallbackOracle) (primary : PrimaryOutcome) :
    Except GenError GenOutcome × List NetCall :=
  let messages := convertPromptToMessages prompt
  if MAX_TOOL_RESULTS ≤ toolResultCount messages then
    if executeSwapCalled messages then
      (.ok ⟨stringifyJson executedDecision, modelId⟩, [])
    else
      let r := callQwenForDecision messages oracle
      (.ok ⟨r.1, REASONING_MODEL⟩, r.2)
  else
    match primary with
    | .httpErr status => (.error (.apiError status), [.primaryModel])
    | .ok data =>
      match (jsField (some data) "choices").bind (fun cv => jsIndex cv 0) with
      | .error _ => (.error .thrown, [.primaryModel])
      | .ok choice =>
        let textContent : Except Unit String :=
          match choice with
          | none => .ok ""
          | some .null => .ok ""
          | c =>
            (jsField (jsFieldOpt c "message") "content").map (fun v =>
              match v with
              | some (.str s) => s
              | some .null => ""
              | none => ""
              | some j => jsToStringPrim j)
        match textContent with
        | .error _ => (.error .thrown, [.primaryModel])
        | .ok t =>
          (.ok ⟨t, jvString (jsFieldOpt (some data) "model")⟩, [.primaryModel])

/-- Recognizer for primary-model calls in a trace. -/
def isPrimaryCall : NetCall → Bool
  | .primaryModel => true
  | _ => false

/-- Recognizer for reasoning-model calls in a trace. -/
def isReasoningCall : NetCall → Bool
  | .reasoningModel => true
  | _ => false

/-- Recognizer for quote-tool calls in a trace. -/
def isQuoteCall : NetCall → Bool
  | .quoteCall _ => true
  | _ => false

/-- Recognizer for swap-tool calls in a trace. -/
def isSwapCall : NetCall → Bool
  | .swapCall _ => true
  | _ => false

/-- A conversation with eight tool calls and their eight results. -/
def c4Prompt : List PromptPart :=
  [.assistant ((List.range 8).map (fun i =>
      AssistantPart.toolCall (toString i) "getTokenPrice" (.strInput "a"))),
   .tool ((List.range 8).map (fun i => ToolPart.toolResult (toString i) (.str "r")))]

/-- An oracle whose reasoning model answers non-2xx. -/
def c4Oracle : FallbackOracle :=
  ⟨.httpErr 500 "", fun _ => ⟨false, none, none⟩, fun _ => ⟨false, none, false, none⟩⟩

/-- The `action` strings of the trade decisions inside a returned decision
text (`none` when the text is not a JSON object with a `trade_decisions`
array). -/
def decisionActions (s : String) : Option (List (Option String)) :=
  match parseJson s with
  | .error _ => none
  | .ok d =>
    match jsFieldOpt (some d) "trade_decisions" with
    | some (.arr l) => some (l.map (fun td =>
        match jsFieldOpt (some td) "action" with
        | some (.str a) => some a
        | _ => none))
    | _ => none

/-- A reasoning-model reply whose only trade decision is a BUY of five
dollars with no `token` field. -/
def c6Content : String :=
  "\x7b\"trade_decisions\":[\x7b\"action\":\"BUY\",\"amount_usd\":5\x7d]\x7d"

/-- A quote oracle that always succeeds. -/
def c6Quote : QuoteArgs → QuoteRes := fun _ => ⟨true, some "100", none⟩

/-- A swap oracle that always succeeds with a transaction hash. -/
def c6Swap : SwapArgs → SwapRes := fun _ => ⟨true, some "0xabc", false, none⟩

/-- The first parsed trade decision of `c6Content`. -/
def c6FirstTd : JVal :=
  jsIndexOpt (jsFieldOpt (parseJson c6Content).toOption "trade_decisions") 0

/-- A complete first trade decision (lowercase action and token, to exercise
the uppercasing). -/
def c6First : Json :=
  .obj [("token", .str "aero"), ("action", .str "buy"), ("amount_usd", .num 250),
    ("rationale", .str "momentum")]

/-- A decision object holding `c6First` as its only trade decision. -/
def c6Dec : Json :=
  .obj [("reasoning", .str "r"), ("trade_decisions", .arr [c6First])]

/-- The tool-call trace of `runTrade`, as a function of the examined first
trade decision only. -/
def tradeTraceOf (tdv : JVal) (quote : QuoteArgs → QuoteRes) : List NetCall :=
  if !jvTruthy tdv then []
  else
    match jsUpperOpt (jsFieldOpt tdv "action") with
    | .error _ => []
    | .ok action =>
      if !(action == some "BUY" || action == some "SELL") then []
      else
        let amountV := jsFieldOpt tdv "amount_usd"
        if !jvTruthy amountV || jsLtOne amountV then []
        else
          match jsUpperOpt (jsFieldOpt tdv "token") with
          | .error _ => []
          | .ok tokenOpt =>
            if !optStrTruthy tokenOpt then []
            else
              match jsUpperOpt (jsFieldOpt tdv "via") with
              | .error _ => []
              | .ok viaOpt =>
                let via := viaNorm viaOpt
                let token := tokenOpt.getD ""
                let tokenIn := if action == some "BUY" then "USDC" else token
                let tokenOut := if action == some "BUY" then token else "USDC"
                let quoteArgs : QuoteArgs := ⟨tokenIn, tokenOut, jvString amountV, via⟩
                let quoteResult := quote quoteArgs
                if !quoteResult.success || !optStrTruthy quoteResult.amountOut then
                  [.quoteCall quoteArgs]
                else
                  let minAmountOut :=
                    match parseFloatJs (quoteResult.amountOut.getD "") with
                    | some q => toFixed8 (ratMul q (ratSub (mkRat 1 1) (ratDiv (mkRat 1 1) (mkRat 100 1))))
                    | none => "NaN"
                  let swapArgs : SwapArgs :=
                    ⟨tokenIn, tokenOut, jvString amountV, minAmountOut, 1, via⟩
                  [.quoteCall quoteArgs, .swapCall swapArgs]

/-- A decision whose second trade element is a large BUY: only the first
(HOLD) element is examined. -/
def c10Dec : Json :=
  .obj [("trade_decisions", .arr
    [.obj [("action", .str "HOLD")],
     .obj [("action", .str "BUY"), ("amount_usd", .num 50), ("token", .str "AERO")]])]

/-! ## Theorems -/

/-- C1: the signed message is the plain concatenation
`chainId ++ model ++ fullPrompt ++ fullOutput` with no separators, null
contents count as empty, and the concrete instance from the spec evaluates
to exactly `"1mXY"`. -/
theorem c1_reconstruct_signed_message_concat :
    (∀ (req : ChatCompletionRequest) (resp : ChatCompletionResponse) (chainId : String),
      reconstructSignedMessage req resp chainId =
        chainId ++ resp.model ++ reconstructFullPrompt req.messages ++
          reconstructFullOutput resp.choices) ∧
    reconstructFullPrompt
      [⟨"user", some "a"⟩, ⟨"user", none⟩, ⟨"user", some "b"⟩] = "ab" ∧
    reconstructSignedMessage ⟨[⟨"user", some "X"⟩]⟩
      ⟨"m", [⟨⟨"assistant", some "Y"⟩⟩], "sig"⟩ "1" = "1mXY" := by
  refine ⟨fun req resp chainId => rfl, by decide, by decide⟩

/-- If a string begins with the two characters `0x`, re-attaching `0x` to the
string with those two characters dropped gives the string back. -/
theorem append0x_jsDrop_two (s : String) (h : jsStartsWith s "0x" = true) :
    "0x" ++ jsDrop s 2 = s := by
  obtain ⟨l⟩ := s
  unfold jsStartsWith at h
  rw [List.isPrefixOf_iff_prefix] at h
  obtain ⟨t, ht⟩ := h
  have hd : "0x".data = ['0', 'x'] := rfl
  rw [hd] at ht
  have hl : l = '0' :: 'x' :: t := by
    simpa using ht.symm
  subst hl
  rfl

/-- C5: `verifySignature` never raises; whenever recovery throws, the result
has `isValid = false`, `recoveredAddress = "ERROR"`, an empty reconstructed
message, and the exception message in `error`. -/
theorem c5_verify_signature_recovers_errors
    (data : SignatureVerificationData)
    (verifyMessage : String → String → Except String String) (e : String)
    (h : verifyMessage
        (reconstructSignedMessage data.request data.response data.chainId)
        (normalizeSigHex data.response.signature) = .error e) :
    verifySignature data verifyMessage =
      { isValid := false
        recoveredAddress := "ERROR"
        expectedSigner := data.expectedSigner
        reconstructedMessage := ""
        error := some e } := by
  simp only [verifySignature]
  rw [h]

/-- Witness for C5: a recovery oracle that throws on a malformed signature
produces the documented error result. -/
theorem c5_verify_signature_recovers_errors_witness :
    verifySignature
      ⟨⟨[⟨"user", some "X"⟩]⟩, ⟨"m", [⟨⟨"assistant", some "Y"⟩⟩], "zz"⟩, "1", "0xabc"⟩
      (fun _ _ => .error "invalid signature bytes") =
      { isValid := false
        recoveredAddress := "ERROR"
        expectedSigner := "0xabc"
        reconstructedMessage := ""
        error := some "invalid signature bytes" } :=
  c5_verify_signature_recovers_errors
    ⟨⟨[⟨"user", some "X"⟩]⟩, ⟨"m", [⟨⟨"assistant", some "Y"⟩⟩], "zz"⟩, "1", "0xabc"⟩
    (fun _ _ => .error "invalid signature bytes") "invalid signature bytes" rfl

/-- C9 counterexample: for the signature `"0x0xab"` (which starts with `0x`),
verifying with the signature as-is and with its first two characters stripped
passes *different* signatures to recovery (`"0x0xab"` vs `"0xab"`), so a
recovery function distinguishing them yields different results.  The claimed
invariance fails for signatures whose remainder after `0x` again starts with
`0x`. -/
theorem c9_strip_invariance_counterexample :
    jsStartsWith "0x0xab" "0x" = true ∧
    verifySignature ⟨⟨[]⟩, ⟨"m", [], "0x0xab"⟩, "1", "0xabc"⟩ c9DistinguishingOracle ≠
      verifySignature ⟨⟨[]⟩, ⟨"m", [], jsDrop "0x0xab" 2⟩, "1", "0xabc"⟩
        c9DistinguishingOracle := by
  constructor
  · decide
  · decide

/-- C9 (amended): for every signature starting with `0x` whose remainder does
not itself start with `0x`, verification with the signature and with the
signature stripped of its first two characters agree, for every recovery
oracle: the verifier re-attaches the missing tag, so both calls normalise to
the same signature. -/
theorem c9_strip_invariance_amended
    (req : ChatCompletionRequest) (model : String) (choices : List ResponseChoice)
    (chainId signer s : String)
    (verifyMessage : String → String → Except String String)
    (h1 : jsStartsWith s "0x" = true)
    (h2 : jsStartsWith (jsDrop s 2) "0x" = false) :
    verifySignature ⟨req, ⟨model, choices, s⟩, chainId, signer⟩ verifyMessage =
      verifySignature ⟨req, ⟨model, choices, jsDrop s 2⟩, chainId, signer⟩
        verifyMessage := by
  have hnorm : normalizeSigHex (jsDrop s 2) = normalizeSigHex s := by
    unfold normalizeSigHex
    rw [h1, h2]
    simp [append0x_jsDrop_two s h1]
  simp only [verifySignature]
  rw [hnorm]
  simp only [reconstructSignedMessage]

/-- Witness for C9 (amended): a concrete signature `0xabc1` with and without
its `0x` tag verifies identically. -/
theorem c9_strip_invariance_amended_witness :
    verifySignature ⟨⟨[]⟩, ⟨"m", [], "0xabc1"⟩, "1", "0xdef"⟩
        (fun _ sig => .ok sig) =
      verifySignature ⟨⟨[]⟩, ⟨"m", [], jsDrop "0xabc1" 2⟩, "1", "0xdef"⟩
        (fun _ sig => .ok sig) :=
  c9_strip_invariance_amended ⟨[]⟩ "m" [] "1" "0xdef" "0xabc1"
    (fun _ sig => .ok sig) (by decide) (by decide)

theorem processAssistantContent_toolCalls (items : List AssistantPart) :
    ∀ st : ConvertState, (processAssistantContent st items).toolCalls =
      st.toolCalls ++ assistantCallsOf items := by
  induction items with
  | nil => intro st; simp [processAssistantContent, assistantCallsOf]
  | cons c items ih =>
    intro st
    cases c with
    | text t =>
      simp only [processAssistantContent, ih, assistantCallsOf, List.filterMap_cons]
      split <;> rfl
    | toolCall id name input =>
      simp only [processAssistantContent, ih, assistantCallsOf, List.filterMap_cons]
      simp
    | otherPart =>
      simp only [processAssistantContent, ih, assistantCallsOf, List.filterMap_cons]

theorem processToolContent_toolCalls (items : List ToolPart) :
    ∀ st : ConvertState, (processToolContent st items).toolCalls = st.toolCalls := by
  induction items with
  | nil => intro st; rfl
  | cons c items ih => intro st; cases c <;> simp only [processToolContent, ih]

theorem processAssistantContent_messages (items : List AssistantPart) :
    ∀ st : ConvertState, ∃ extra,
      (processAssistantContent st items).messages = st.messages ++ extra ∧
      ∀ m ∈ extra, m.role = "assistant" ∧ m.tool_calls = [] := by
  induction items with
  | nil => intro st; exact ⟨[], by simp [processAssistantContent], by simp⟩
  | cons c items ih =>
    intro st
    cases c with
    | text t =>
      simp only [processAssistantContent]
      split
      · obtain ⟨extra, hmsg, hall⟩ := ih { st with messages := st.messages ++ [⟨"assistant", some t, [], none⟩] }
        refine ⟨⟨"assistant", some t, [], none⟩ :: extra, ?_, ?_⟩
        · simpa using hmsg
        · intro m hm
          rcases List.mem_cons.mp hm with hm | hm
          · subst hm; exact ⟨rfl, rfl⟩
          · exact hall m hm
      · exact ih st
    | toolCall id name input =>
      simp only [processAssistantContent]
      exact ih _
    | otherPart =>
      simp only [processAssistantContent]
      exact ih st

theorem processToolContent_messages (items : List ToolPart) :
    ∀ st : ConvertState, (processToolContent st items).messages = st.messages := by
  induction items with
  | nil => intro st; rfl
  | cons c items ih => intro st; cases c <;> simp only [processToolContent, ih]

theorem convertFoldl_toolCalls (l : List PromptPart) :
    ∀ st : ConvertState, (l.foldl convertStep st).toolCalls =
      st.toolCalls ++ collectToolCalls l := by
  induction l with
  | nil => intro st; simp [collectToolCalls]
  | cons p l ih =>
    intro st
    simp only [List.foldl_cons, ih, collectToolCalls, List.flatMap_cons]
    cases p with
    | system c => simp [convertStep]
    | user c => simp [convertStep]
    | assistant items =>
      simp [convertStep, processAssistantContent_toolCalls, assistantCallsOf,
        collectToolCalls]
    | tool items => simp [convertStep, processToolContent_toolCalls]

theorem convertFirstPass_toolCalls (prompt : List PromptPart) :
    (convertFirstPass prompt).toolCalls = collectToolCalls prompt := by
  simpa [convertFirstPass] using convertFoldl_toolCalls prompt ⟨[], [], []⟩

theorem convertFoldl_messages (l : List PromptPart) :
    ∀ st : ConvertState, ∃ extra,
      (l.foldl convertStep st).messages = st.messages ++ extra ∧
      (∀ m ∈ extra, m.tool_calls = []) ∧
      extra.filter sysUserB = sysUserMsgs l := by
  induction l with
  | nil =>
    intro st
    exact ⟨[], by simp, by simp, by simp [sysUserMsgs]⟩
  | cons p l ih =>
    intro st
    cases p with
    | system c =>
      obtain ⟨extra, hmsg, hcalls, hfilter⟩ :=
        ih { st with messages := st.messages ++ [⟨"system", some c, [], none⟩] }
      refine ⟨⟨"system", some c, [], none⟩ :: extra, ?_, ?_, ?_⟩
      · simpa [convertStep] using hmsg
      · intro m hm
        rcases List.mem_cons.mp hm with hm | hm
        · subst hm; rfl
        · exact hcalls m hm
      · simp [List.filter_cons, sysUserB, hfilter, sysUserMsgs, List.filterMap_cons]
    | user content =>
      obtain ⟨extra, hmsg, hcalls, hfilter⟩ := ih (convertStep st (.user content))
      refine ⟨⟨"user", some (String.join (content.map (fun c =>
          match c with
          | .text t => t
          | .otherPart => ""))), [], none⟩ :: extra, ?_, ?_, ?_⟩
      · simpa [convertStep] using hmsg
      · intro m hm
        rcases List.mem_cons.mp hm with hm | hm
        · subst hm; rfl
        · exact hcalls m hm
      · simp [List.filter_cons, sysUserB, hfilter, sysUserMsgs, List.filterMap_cons]
    | assistant items =>
      obtain ⟨extraA, hmsgA, hallA⟩ := processAssistantContent_messages items st
      obtain ⟨extra, hmsg, hcalls, hfilter⟩ := ih (processAssistantContent st items)
      refine ⟨extraA ++ extra, ?_, ?_, ?_⟩
      · simp [convertStep, hmsg, hmsgA]
      · intro m hm
        rcases List.mem_append.mp hm with hm | hm
        · exact (hallA m hm).2
        · exact hcalls m hm
      · have hA : extraA.filter sysUserB = [] := by
          rw [List.filter_eq_nil_iff]
          intro m hm
          simp [sysUserB, (hallA m hm).1]
        simp [List.filter_append, hA, hfilter, sysUserMsgs, List.filterMap_cons]
    | tool items =>
      obtain ⟨extra, hmsg, hcalls, hfilter⟩ := ih (processToolContent st items)
      refine ⟨extra, ?_, hcalls, ?_⟩
      · simp [convertStep, hmsg, processToolContent_messages]
      · simp [hfilter, sysUserMsgs, List.filterMap_cons]

theorem interleaveCalls_filter_calls (results : List (String × String))
    (calls : List ToolCallRec) :
    (interleaveCalls calls results).filter (fun m => !m.tool_calls.isEmpty) =
      calls.map (fun tc => ⟨"assistant", none, [tc], none⟩) := by
  induction calls with
  | nil => rfl
  | cons tc calls ih =>
    simp only [interleaveCalls, List.flatMap_cons] at *
    cases h : mapGet results tc.id <;>
      simp [h, List.filter_append, List.filter_cons, ih]

theorem interleaveCalls_filter_sysUser (results : List (String × String))
    (calls : List ToolCallRec) :
    (interleaveCalls calls results).filter sysUserB = [] := by
  induction calls with
  | nil => rfl
  | cons tc calls ih =>
    simp only [interleaveCalls, List.flatMap_cons] at *
    cases h : mapGet results tc.id <;>
      simp [h, List.filter_append, List.filter_cons, ih, sysUserB]

/-- C2: for every accumulated-turn conversation, the adapter's output is its
pass-through block (messages that carry no tool calls) followed, for each
collected tool call in original order, by one assistant message holding
exactly that single call, immediately followed by the matching tool-result
message precisely when a result keyed by that call's id exists; consequently
the messages carrying tool calls are exactly the N collected calls, one call
each, in order. -/
theorem c2_convert_interleaves_calls (prompt : List PromptPart) :
    (convertPromptToMessages prompt).filter (fun m => !m.tool_calls.isEmpty) =
      (collectToolCalls prompt).map (fun tc => ⟨"assistant", none, [tc], none⟩) ∧
    convertPromptToMessages prompt = (convertFirstPass prompt).messages ++
      (collectToolCalls prompt).flatMap (fun tc =>
        ⟨"assistant", none, [tc], none⟩ ::
          (match mapGet (convertFirstPass prompt).toolResults tc.id with
           | some r => [⟨"tool", some r, [], some tc.id⟩]
           | none => [])) ∧
    ∀ m ∈ (convertFirstPass prompt).messages, m.tool_calls = [] := by
  have hno : ∀ m ∈ (convertFirstPass prompt).messages, m.tool_calls = [] := by
    obtain ⟨extra, hmsg, hcalls, -⟩ := convertFoldl_messages prompt ⟨[], [], []⟩
    intro m hm
    rw [convertFirstPass] at hm
    rw [hmsg] at hm
    exact hcalls m (by simpa using hm)
  have h2 : convertPromptToMessages prompt = (convertFirstPass prompt).messages ++
      (collectToolCalls prompt).flatMap (fun tc =>
        ⟨"assistant", none, [tc], none⟩ ::
          (match mapGet (convertFirstPass prompt).toolResults tc.id with
           | some r => [⟨"tool", some r, [], some tc.id⟩]
           | none => [])) := by
    rw [convertPromptToMessages, interleaveCalls, convertFirstPass_toolCalls]
  refine ⟨?_, h2, hno⟩
  rw [h2, List.filter_append]
  have hfst : (convertFirstPass prompt).messages.filter
      (fun m => !m.tool_calls.isEmpty) = [] := by
    rw [List.filter_eq_nil_iff]
    intro m hm
    simp [hno m hm]
  rw [hfst]
  simpa [interleaveCalls] using
    interleaveCalls_filter_calls (convertFirstPass prompt).toolResults
      (collectToolCalls prompt)

/-- C8 counterexample: in a conversation whose earlier assistant entry made a
tool call, a trailing text-only assistant entry is dropped: no message of the
output carries its text, contradicting the unconditional pass-through claim. -/
theorem c8_trailing_text_dropped_counterexample :
    (convertPromptToMessages
        [.assistant [.toolCall "1" "getTokenPrice" (.strInput "\x7b\x7d")],
         .tool [.toolResult "1" (.str "42")],
         .assistant [.text "hi"]]).all
      (fun m => m.content != some "hi") = true := by
  decide

/-- C8 (amended): system and user entries pass through unchanged (in order,
as the system/user messages of the output), and a trailing text-only
assistant entry becomes a plain assistant message provided its text is
non-blank and no assistant entry of the whole conversation contributed a
tool call (otherwise the source drops the text). -/
theorem c8_passthrough_and_trailing_text :
    (∀ prompt : List PromptPart,
      (convertPromptToMessages prompt).filter sysUserB = sysUserMsgs prompt) ∧
    (∀ (rest : List PromptPart) (t : String),
      collectToolCalls (rest ++ [.assistant [.text t]]) = [] →
      (jsTrim t != "") = true →
      convertPromptToMessages (rest ++ [.assistant [.text t]]) =
        convertPromptToMessages rest ++ [⟨"assistant", some t, [], none⟩]) := by
  constructor
  · intro prompt
    rw [convertPromptToMessages, List.filter_append]
    obtain ⟨extra, hmsg, -, hfilter⟩ := convertFoldl_messages prompt ⟨[], [], []⟩
    rw [convertFirstPass, hmsg, interleaveCalls_filter_sysUser]
    simpa using hfilter
  · intro rest t hcalls htrim
    have hrest : collectToolCalls rest = [] := by
      rw [collectToolCalls, List.flatMap_append] at hcalls
      exact (List.append_eq_nil.mp hcalls).1
    have hfp : (convertFirstPass rest).toolCalls = [] := by
      rw [convertFirstPass_toolCalls, hrest]
    have hstep : convertFirstPass (rest ++ [.assistant [.text t]]) =
        { convertFirstPass rest with
            messages := (convertFirstPass rest).messages ++
              [⟨"assistant", some t, [], none⟩] } := by
      rw [convertFirstPass, List.foldl_append]
      show convertStep (convertFirstPass rest) (.assistant [.text t]) = _
      simp [convertStep, processAssistantContent, htrim, hfp]
    rw [convertPromptToMessages, convertPromptToMessages, hstep]
    simp only [interleaveCalls, hfp, List.flatMap_nil, List.append_nil]

/-- C3: the SSE pull loop (i) skips a `[DONE]` sentinel line without error,
(ii) drops any event-data line whose JSON parse fails and continues,
(iii) retains an incomplete trailing line in the buffer without parsing it
(shown on a chunk cut mid-JSON), (iv) on the spec's three example chunks
emits exactly the text deltas `"Hel"` then `"lo"` and ends with a finish
event, and (v) still does so when a malformed line is inserted in the
middle. -/
theorem c3_stream_line_handling :
    (∀ (st : StreamState) (tid : String),
      processDataLine st tid "data: [DONE]" = (st, [])) ∧
    (∀ (st : StreamState) (tid line : String),
      jsStartsWith line "data: " = true →
      (parseJson (jsTrim (jsDrop line 6))).isOk = false →
      processDataLine st tid line = (st, [])) ∧
    processChunk "tid" (initStreamState "m") "data: \x7b\"choices\"" =
      ({ initStreamState "m" with buffer := "data: \x7b\"choices\"" }, []) ∧
    (deltaPayloads (runStream "m" "tid"
        ["data: \x7b\"choices\":[\x7b\"delta\":\x7b\"content\":\"Hel\"\x7d\x7d]\x7d\n",
         "data: \x7b\"choices\":[\x7b\"delta\":\x7b\"content\":\"lo\"\x7d\x7d]\x7d\n",
         "data: [DONE]\n"]) = ["Hel", "lo"] ∧
      lastIsFinish (runStream "m" "tid"
        ["data: \x7b\"choices\":[\x7b\"delta\":\x7b\"content\":\"Hel\"\x7d\x7d]\x7d\n",
         "data: \x7b\"choices\":[\x7b\"delta\":\x7b\"content\":\"lo\"\x7d\x7d]\x7d\n",
         "data: [DONE]\n"]) = true) ∧
    (deltaPayloads (runStream "m" "tid"
        ["data: \x7b\"choices\":[\x7b\"delta\":\x7b\"content\":\"Hel\"\x7d\x7d]\x7d\n",
         "data: \x7boops\n",
         "data: \x7b\"choices\":[\x7b\"delta\":\x7b\"content\":\"lo\"\x7d\x7d]\x7d\n",
         "data: [DONE]\n"]) = ["Hel", "lo"] ∧
      lastIsFinish (runStream "m" "tid"
        ["data: \x7b\"choices\":[\x7b\"delta\":\x7b\"content\":\"Hel\"\x7d\x7d]\x7d\n",
         "data: \x7boops\n",
         "data: \x7b\"choices\":[\x7b\"delta\":\x7b\"content\":\"lo\"\x7d\x7d]\x7d\n",
         "data: [DONE]\n"]) = true) := by
  refine ⟨fun st tid => rfl, ?_, rfl, ⟨by decide, by decide⟩, ⟨by decide, by decide⟩⟩
  intro st tid line h1 h2
  by_cases hdone : (jsTrim (jsDrop line 6) == "[DONE]") = true
  · simp [processDataLine, h1, hdone]
  · cases hp : parseJson (jsTrim (jsDrop line 6)) with
    | error e => simp [processDataLine, h1, hdone, hp]
    | ok v => rw [hp] at h2; simp [Except.isOk, Except.toBool] at h2

/-- Witness for C3: the hypothesis-bearing conjunct applied to the concrete
malformed line `"data: oops"`. -/
theorem c3_stream_line_handling_witness :
    processDataLine (initStreamState "m") "tid" "data: oops" =
      (initStreamState "m", []) :=
  c3_stream_line_handling.2.1 (initStreamState "m") "tid" "data: oops"
    (by decide) (by decide)

theorem runTrade_trace_shape (decision : Json) (quote : QuoteArgs → QuoteRes)
    (swap : SwapArgs → SwapRes) :
    (runTrade decision quote swap).2 = [] ∨
    (∃ qa, (runTrade decision quote swap).2 = [NetCall.quoteCall qa]) ∨
    (∃ qa sa, (runTrade decision quote swap).2 =
      [NetCall.quoteCall qa, NetCall.swapCall sa]) := by
  rcases hr : runTrade decision quote swap with ⟨out, trace⟩
  simp only [runTrade] at hr
  repeat' split at hr
  all_goals (rw [Prod.mk.injEq] at hr; rcases hr with ⟨h1, h2⟩; subst h2; simp)

theorem executeTrade_trace_shape (content : String) (quote : QuoteArgs → QuoteRes)
    (swap : SwapArgs → SwapRes) :
    (executeTradeFromDecision content quote swap).2 = [] ∨
    ∃ d, (executeTradeFromDecision content quote swap).2 = (runTrade d quote swap).2 := by
  rcases hr : executeTradeFromDecision content quote swap with ⟨out, trace⟩
  simp only [executeTradeFromDecision] at hr
  repeat' split at hr
  all_goals (rw [Prod.mk.injEq] at hr; rcases hr with ⟨h1, h2⟩; subst h2)
  all_goals simp
  next d _ => exact Or.inr ⟨d, rfl⟩

theorem executeTrade_model_call_free (content : String) (quote : QuoteArgs → QuoteRes)
    (swap : SwapArgs → SwapRes) :
    (executeTradeFromDecision content quote swap).2.countP isPrimaryCall = 0 ∧
    (executeTradeFromDecision content quote swap).2.countP isReasoningCall = 0 := by
  rcases executeTrade_trace_shape content quote swap with h | ⟨d, h⟩
  · simp [h]
  · rw [h]
    rcases runTrade_trace_shape d quote swap with h2 | ⟨qa, h2⟩ | ⟨qa, sa, h2⟩ <;>
      simp [h2, List.countP_cons, isPrimaryCall, isReasoningCall]

theorem callQwen_trace (msgs : List EigenAIMessage) (oracle : FallbackOracle) :
    (callQwenForDecision msgs oracle).2.countP isPrimaryCall = 0 ∧
    (callQwenForDecision msgs oracle).2.countP isReasoningCall = 1 := by
  unfold callQwenForDecision
  cases hq : oracle.qwen with
  | httpErr st b => simp [List.countP_cons, isPrimaryCall, isReasoningCall]
  | thrown m => simp [List.countP_cons, isPrimaryCall, isReasoningCall]
  | ok data =>
    constructor
    · simp [List.countP_cons, isPrimaryCall,
        (executeTrade_model_call_free _ oracle.quote oracle.swap).1]
    · simp [List.countP_cons, isReasoningCall,
        (executeTrade_model_call_free _ oracle.quote oracle.swap).2]

/-- C4: at or above the tool-result budget, `doGenerate` issues no
primary-model request; with a prior `executeSwap` call it returns the fixed
EXECUTED decision and makes no model call at all; otherwise it invokes the
reasoning model exactly once and returns that engine's decision. -/
theorem c4_budget_short_circuit (prompt : List PromptPart) (modelId : String)
    (oracle : FallbackOracle) (primary : PrimaryOutcome)
    (h : MAX_TOOL_RESULTS ≤ toolResultCount (convertPromptToMessages prompt)) :
    (doGenerate prompt modelId oracle primary).2.countP isPrimaryCall = 0 ∧
    (executeSwapCalled (convertPromptToMessages prompt) = true →
      doGenerate prompt modelId oracle primary =
        (.ok ⟨stringifyJson executedDecision, modelId⟩, [])) ∧
    (executeSwapCalled (convertPromptToMessages prompt) = false →
      (doGenerate prompt modelId oracle primary).2.countP isReasoningCall = 1 ∧
      (doGenerate prompt modelId oracle primary).1 =
        .ok ⟨(callQwenForDecision (convertPromptToMessages prompt) oracle).1,
          REASONING_MODEL⟩) := by
  unfold doGenerate
  rw [if_pos h]
  cases hswap : executeSwapCalled (convertPromptToMessages prompt) with
  | true => exact ⟨by simp, fun _ => rfl, fun hc => by simp at hc⟩
  | false =>
    refine ⟨?_, fun hc => by simp at hc, fun _ => ⟨?_, rfl⟩⟩
    · exact (callQwen_trace (convertPromptToMessages prompt) oracle).1
    · exact (callQwen_trace (convertPromptToMessages prompt) oracle).2

/-- Witness for C4: on a concrete conversation holding exactly eight tool
results and no `executeSwap` call, the reasoning model is called exactly
once and its decision is returned. -/
theorem c4_budget_short_circuit_witness :
    (doGenerate c4Prompt "m" c4Oracle (.httpErr 500)).2.countP isReasoningCall = 1 ∧
    (doGenerate c4Prompt "m" c4Oracle (.httpErr 500)).1 =
      .ok ⟨(callQwenForDecision (convertPromptToMessages c4Prompt) c4Oracle).1,
        REASONING_MODEL⟩ :=
  (c4_budget_short_circuit c4Prompt "m" c4Oracle (.httpErr 500) (by decide)).2.2
    (by decide)

set_option maxRecDepth 10000 in
/-- C7: whenever the reasoning-model call fails — transport throw or non-2xx
response — `callQwenForDecision` returns (never raises) a synthesized
decision, and both synthesized decisions are JSON-decodable with every trade
decision an explicit HOLD. -/
theorem c7_fallback_hold_default (msgs : List EigenAIMessage)
    (oracle : FallbackOracle) :
    (∀ status body, oracle.qwen = .httpErr status body →
      callQwenForDecision msgs oracle =
        (stringifyJson qwenHttpFailDecision, [.reasoningModel])) ∧
    (∀ msg, oracle.qwen = .thrown msg →
      callQwenForDecision msgs oracle =
        (stringifyJson qwenThrownDecision, [.reasoningModel])) ∧
    decisionActions (stringifyJson qwenHttpFailDecision) = some [some "HOLD"] ∧
    decisionActions (stringifyJson qwenThrownDecision) = some [some "HOLD"] := by
  refine ⟨?_, ?_, by decide, by decide⟩
  · intro status body hq
    unfold callQwenForDecision
    rw [hq]
  · intro msg hq
    unfold callQwenForDecision
    rw [hq]

/-- Witness for C7: a concrete oracle whose reasoning model answers 500
yields the HOLD-all fallback decision. -/
theorem c7_fallback_hold_default_witness :
    callQwenForDecision [] c4Oracle =
      (stringifyJson qwenHttpFailDecision, [.reasoningModel]) :=
  (c7_fallback_hold_default [] c4Oracle).1 500 "" rfl

theorem c6A (decision first : Json) (rest : List Json) (act tok : String)
    (viaOpt : Option String) (q : Rat)
    (quote : QuoteArgs → QuoteRes) (swap : SwapArgs → SwapRes)
    (htd : jsFieldOpt (some decision) "trade_decisions" = some (.arr (first :: rest)))
    (haction : jsUpperOpt (jsFieldOpt (some first) "action") = .ok (some act))
    (hact : act = "BUY" ∨ act = "SELL")
    (hamount : jsFieldOpt (some first) "amount_usd" = some (.num q))
    (hq : 1 ≤ q)
    (htoken : jsUpperOpt (jsFieldOpt (some first) "token") = .ok (some tok))
    (htok : tok ≠ "")
    (hvia : jsUpperOpt (jsFieldOpt (some first) "via") = .ok viaOpt) :
    (∃ qa, ((runTrade decision quote swap).2).head? = some (.quoteCall qa)) ∧
    ((∃ h, (runTrade decision quote swap).1 = some (setFirstRationale decision
        (jvString (jsFieldOpt (some first) "rationale") ++ " [EXECUTED: TX " ++ h ++ "]"))) ∨
      (runTrade decision quote swap).1 = some (setFirstRationale decision
        (jvString (jsFieldOpt (some first) "rationale") ++ " [DRY RUN: Trade simulated only]")) ∨
      (∃ e, (runTrade decision quote swap).1 = some (setFirstRationale decision
        (jvString (jsFieldOpt (some first) "rationale") ++ " [EXECUTION FAILED: " ++ e ++ "]")))) := by
  have htdv : jsIndexOpt (jsFieldOpt (some decision) "trade_decisions") 0 = some first := by
    rw [htd]; rfl
  have hq0 : q ≠ 0 := by intro h; rw [h] at hq; norm_num at hq
  have hq1 : ¬(q < 1) := not_lt.mpr hq
  have htr : jvTruthy (some first) = true := by
    cases first
    case obj => simp [jvTruthy, jsonTruthy]
    all_goals simp [jsFieldOpt, jsUpperOpt] at haction
  have hamt : jvTruthy (some (Json.num q)) = true := by
    simp [jvTruthy, jsonTruthy, hq0]
  have hlt : jsLtOne (some (Json.num q)) = false := by
    simp [jsLtOne, jvToNumber, hq1]
  have htks : optStrTruthy (some tok) = true := by
    simp [optStrTruthy, htok]
  rcases hact with rfl | rfl
  · have hb : ((some "BUY" == some "BUY") : Bool) = true := by decide
    rcases hr : runTrade decision quote swap with ⟨out, trace⟩
    simp only [runTrade] at hr
    simp [htdv, haction, hamount, htoken, hvia, htr, hamt, hlt, htks, hb] at hr
    split at hr
    · rw [Prod.mk.injEq] at hr
      rcases hr with ⟨h1, h2⟩
      subst h1; subst h2
      refine ⟨⟨_, rfl⟩, Or.inr (Or.inr
        ⟨"Quote error - " ++ tmplOpt (quote ⟨"USDC", tok, jvString (some (Json.num q)),
          viaNorm viaOpt⟩).error, ?_⟩)⟩
      rw [show (" [EXECUTION FAILED: Quote error - " : String) =
        " [EXECUTION FAILED: " ++ "Quote error - " from rfl]
      simp only [String.append_assoc]
    · split at hr
      · rw [Prod.mk.injEq] at hr
        rcases hr with ⟨h1, h2⟩
        subst h1; subst h2
        exact ⟨⟨_, rfl⟩, Or.inl ⟨_, rfl⟩⟩
      · split at hr
        · rw [Prod.mk.injEq] at hr
          rcases hr with ⟨h1, h2⟩
          subst h1; subst h2
          exact ⟨⟨_, rfl⟩, Or.inr (Or.inl rfl)⟩
        · rw [Prod.mk.injEq] at hr
          rcases hr with ⟨h1, h2⟩
          subst h1; subst h2
          exact ⟨⟨_, rfl⟩, Or.inr (Or.inr ⟨_, rfl⟩)⟩
  · have hb : ((some "SELL" == some "BUY") : Bool) = false := by decide
    have hb2 : ((some "SELL" == some "SELL") : Bool) = true := by decide
    rcases hr : runTrade decision quote swap with ⟨out, trace⟩
    simp only [runTrade] at hr
    simp [htdv, haction, hamount, htoken, hvia, htr, hamt, hlt, htks, hb, hb2] at hr
    split at hr
    · rw [Prod.mk.injEq] at hr
      rcases hr with ⟨h1, h2⟩
      subst h1; subst h2
      refine ⟨⟨_, rfl⟩, Or.inr (Or.inr
        ⟨"Quote error - " ++ tmplOpt (quote ⟨tok, "USDC", jvString (some (Json.num q)),
          viaNorm viaOpt⟩).error, ?_⟩)⟩
      rw [show (" [EXECUTION FAILED: Quote error - " : String) =
        " [EXECUTION FAILED: " ++ "Quote error - " from rfl]
      simp only [String.append_assoc]
    · split at hr
      · rw [Prod.mk.injEq] at hr
        rcases hr with ⟨h1, h2⟩
        subst h1; subst h2
        exact ⟨⟨_, rfl⟩, Or.inl ⟨_, rfl⟩⟩
      · split at hr
        · rw [Prod.mk.injEq] at hr
          rcases hr with ⟨h1, h2⟩
          subst h1; subst h2
          exact ⟨⟨_, rfl⟩, Or.inr (Or.inl rfl)⟩
        · rw [Prod.mk.injEq] at hr
          rcases hr with ⟨h1, h2⟩
          subst h1; subst h2
          exact ⟨⟨_, rfl⟩, Or.inr (Or.inr ⟨_, rfl⟩)⟩

theorem c6B (decision : Json) (quote : QuoteArgs → QuoteRes)
    (swap : SwapArgs → SwapRes) (act : Option String)
    (haction : jsUpperOpt (jsFieldOpt
      (jsIndexOpt (jsFieldOpt (some decision) "trade_decisions") 0) "action") = .ok act)
    (hno : ∀ a, act = some a → a ≠ "BUY" ∧ a ≠ "SELL") :
    runTrade decision quote swap = (none, []) := by
  have hb1 : (act == some "BUY") = false := by
    cases act with
    | none => rfl
    | some a => simp [(hno a rfl).1]
  have hb2 : (act == some "SELL") = false := by
    cases act with
    | none => rfl
    | some a => simp [(hno a rfl).2]
  by_cases htv : jvTruthy (jsIndexOpt (jsFieldOpt (some decision) "trade_decisions") 0) = true
  · simp [runTrade, haction, htv, hb1, hb2]
  · have hf : jvTruthy (jsIndexOpt (jsFieldOpt (some decision) "trade_decisions") 0) = false := by
      revert htv
      cases jvTruthy (jsIndexOpt (jsFieldOpt (some decision) "trade_decisions") 0) <;> simp
    simp [runTrade, hf]

theorem c6C (decision : Json) (quote : QuoteArgs → QuoteRes)
    (swap : SwapArgs → SwapRes) (q : Rat)
    (hamount : jsFieldOpt (jsIndexOpt (jsFieldOpt (some decision) "trade_decisions") 0)
      "amount_usd" = some (.num q))
    (hlt : q < 1) :
    runTrade decision quote swap = (none, []) := by
  have hamtgate : (!jvTruthy (some (Json.num q)) || jsLtOne (some (Json.num q))) = true := by
    by_cases h0 : q = 0
    · subst h0; simp [jvTruthy, jsonTruthy]
    · simp [jsLtOne, jvToNumber, hlt]
  by_cases htv : jvTruthy (jsIndexOpt (jsFieldOpt (some decision) "trade_decisions") 0) = true
  · cases ha : jsUpperOpt (jsFieldOpt
        (jsIndexOpt (jsFieldOpt (some decision) "trade_decisions") 0) "action") with
    | error e => simp [runTrade, htv, ha]
    | ok act =>
      by_cases hbs : (act == some "BUY" || act == some "SELL") = true
      · simp [runTrade, htv, ha, hbs, hamount, hamtgate]
      · have hbs2 : (act == some "BUY" || act == some "SELL") = false := by
          revert hbs
          cases (act == some "BUY" || act == some "SELL") <;> simp
        simp [runTrade, htv, ha, hbs2]
  · have hf : jvTruthy (jsIndexOpt (jsFieldOpt (some decision) "trade_decisions") 0) = false := by
      revert htv
      cases jvTruthy (jsIndexOpt (jsFieldOpt (some decision) "trade_decisions") 0) <;> simp
    simp [runTrade, hf]

set_option maxRecDepth 10000 in
/-- C6 counterexample: the parsed decision `c6Content` has action BUY and
`amount_usd = 5 ≥ 1`, yet `executeTradeFromDecision` makes no quote or swap
call and returns null, because the decision lacks a token — the claim's
"whenever action is BUY or SELL and amount_usd ≥ 1" trigger condition is
not sufficient. -/
theorem c6_missing_token_counterexample :
    executeTradeFromDecision c6Content c6Quote c6Swap = (none, []) ∧
    jsUpperOpt (jsFieldOpt c6FirstTd "action") = .ok (some "BUY") ∧
    jvToNumber (jsFieldOpt c6FirstTd "amount_usd") = some 5 := by
  refine ⟨by decide, rfl, by decide⟩

/-- C6 (amended): (1) whenever the parsed decision's first trade decision
has action BUY or SELL (case-insensitively), `amount_usd ≥ 1`, and a
non-empty token, the trade-execution capability is invoked — a quote first —
and exactly one execution-outcome tag (`[EXECUTED: ...]`, `[DRY RUN: ...]`
or `[EXECUTION FAILED: ...]`) is appended onto that decision's rationale in
the returned decision; (2) when the action is not BUY/SELL (HOLD, absent, or
anything else) no call is made and null is returned; (3) likewise when
`amount_usd < 1`. -/
theorem c6_trade_gating_amended :
    (∀ (decision first : Json) (rest : List Json) (act tok : String)
        (viaOpt : Option String) (q : Rat)
        (quote : QuoteArgs → QuoteRes) (swap : SwapArgs → SwapRes),
      jsFieldOpt (some decision) "trade_decisions" = some (.arr (first :: rest)) →
      jsUpperOpt (jsFieldOpt (some first) "action") = .ok (some act) →
      (act = "BUY" ∨ act = "SELL") →
      jsFieldOpt (some first) "amount_usd" = some (.num q) →
      1 ≤ q →
      jsUpperOpt (jsFieldOpt (some first) "token") = .ok (some tok) →
      tok ≠ "" →
      jsUpperOpt (jsFieldOpt (some first) "via") = .ok viaOpt →
      (∃ qa, ((runTrade decision quote swap).2).head? = some (.quoteCall qa)) ∧
      ((∃ h, (runTrade decision quote swap).1 = some (setFirstRationale decision
          (jvString (jsFieldOpt (some first) "rationale") ++ " [EXECUTED: TX " ++ h ++ "]"))) ∨
        (runTrade decision quote swap).1 = some (setFirstRationale decision
          (jvString (jsFieldOpt (some first) "rationale") ++ " [DRY RUN: Trade simulated only]")) ∨
        (∃ e, (runTrade decision quote swap).1 = some (setFirstRationale decision
          (jvString (jsFieldOpt (some first) "rationale") ++ " [EXECUTION FAILED: " ++ e ++ "]"))))) ∧
    (∀ (decision : Json) (quote : QuoteArgs → QuoteRes) (swap : SwapArgs → SwapRes)
        (act : Option String),
      jsUpperOpt (jsFieldOpt
        (jsIndexOpt (jsFieldOpt (some decision) "trade_decisions") 0) "action") = .ok act →
      (∀ a, act = some a → a ≠ "BUY" ∧ a ≠ "SELL") →
      runTrade decision quote swap = (none, [])) ∧
    (∀ (decision : Json) (quote : QuoteArgs → QuoteRes) (swap : SwapArgs → SwapRes)
        (q : Rat),
      jsFieldOpt (jsIndexOpt (jsFieldOpt (some decision) "trade_decisions") 0)
        "amount_usd" = some (.num q) →
      q < 1 →
      runTrade decision quote swap = (none, [])) := by
  refine ⟨?_, ?_, ?_⟩
  · intro decision first rest act tok viaOpt q quote swap htd haction hact hamount hq htoken htok hvia
    exact c6A decision first rest act tok viaOpt q quote swap htd haction hact hamount hq
      htoken htok hvia
  · intro decision quote swap act haction hno
    exact c6B decision quote swap act haction hno
  · intro decision quote swap q hamount hlt
    exact c6C decision quote swap q hamount hlt

/-- Witness for C6 (amended): on the concrete BUY decision `c6Dec` with
succeeding quote and swap oracles, a quote is the first call and the first
rationale gains exactly one outcome tag. -/
theorem c6_trade_gating_amended_witness :
    (∃ qa, ((runTrade c6Dec c6Quote c6Swap).2).head? = some (.quoteCall qa)) ∧
    ((∃ h, (runTrade c6Dec c6Quote c6Swap).1 = some (setFirstRationale c6Dec
        (jvString (jsFieldOpt (some c6First) "rationale") ++ " [EXECUTED: TX " ++ h ++ "]"))) ∨
      (runTrade c6Dec c6Quote c6Swap).1 = some (setFirstRationale c6Dec
        (jvString (jsFieldOpt (some c6First) "rationale") ++ " [DRY RUN: Trade simulated only]")) ∨
      (∃ e, (runTrade c6Dec c6Quote c6Swap).1 = some (setFirstRationale c6Dec
        (jvString (jsFieldOpt (some c6First) "rationale") ++ " [EXECUTION FAILED: " ++ e ++ "]")))) :=
  c6_trade_gating_amended.1 c6Dec c6First [] "BUY" "AERO" none 250 c6Quote c6Swap
    rfl rfl (Or.inl rfl) rfl (by norm_num) rfl (by decide) rfl

set_option maxHeartbeats 2000000 in
theorem runTrade_trace_spec (d : Json) (quote : QuoteArgs → QuoteRes)
    (swap : SwapArgs → SwapRes) :
    (runTrade d quote swap).2 =
      tradeTraceOf (jsIndexOpt (jsFieldOpt (some d) "trade_decisions") 0) quote := by
  rcases hr : runTrade d quote swap with ⟨out, trace⟩
  simp only [runTrade] at hr
  repeat' split at hr
  all_goals
    (rw [Prod.mk.injEq] at hr; rcases hr with ⟨h1, h2⟩; subst h2;
     simp only [tradeTraceOf]; repeat' split; all_goals simp_all)

theorem runTrade_output_shape (d : Json) (quote : QuoteArgs → QuoteRes)
    (swap : SwapArgs → SwapRes) :
    (runTrade d quote swap).1 = none ∨
    ∃ r, (runTrade d quote swap).1 = some (setFirstRationale d r) := by
  rcases hr : runTrade d quote swap with ⟨out, trace⟩
  simp only [runTrade] at hr
  repeat' split at hr
  all_goals (rw [Prod.mk.injEq] at hr; rcases hr with ⟨h1, h2⟩; subst h1; simp)

theorem find_map_set (l : List (String × Json)) (k : String) (v : Json)
    (h : l.any (fun p => p.1 == k) = true) :
    (l.map (fun p => if p.1 == k then (k, v) else p)).find? (fun p => p.1 == k) =
      some (k, v) := by
  induction l with
  | nil => simp at h
  | cons p l ih =>
    by_cases hk : (p.1 == k) = true
    · rw [List.map_cons, if_pos hk, List.find?_cons_of_pos _ (by simp)]
    · have h2 : l.any (fun p => p.1 == k) = true := by
        simpa [List.any_cons, hk] using h
      rw [List.map_cons, if_neg hk, List.find?_cons_of_neg _ (by simpa using hk), ih h2]

theorem find_append_set (l : List (String × Json)) (k : String) (v : Json)
    (h : l.any (fun p => p.1 == k) = false) :
    (l ++ [(k, v)]).find? (fun p => p.1 == k) = some (k, v) := by
  induction l with
  | nil => rw [List.nil_append, List.find?_cons_of_pos _ (by simp)]
  | cons p l ih =>
    rw [List.any_cons, Bool.or_eq_false_iff] at h
    obtain ⟨hk, h2⟩ := h
    rw [List.cons_append, List.find?_cons_of_neg _ (by simp [hk]), ih h2]

theorem jsFieldOpt_setObjField (l : List (String × Json)) (k : String) (v : Json) :
    jsFieldOpt (some (setObjField (.obj l) k v)) k = some v := by
  simp only [setObjField]
  by_cases h : l.any (fun p => p.1 == k) = true
  · simp only [if_pos h, jsFieldOpt, find_map_set l k v h]
    rfl
  · have h2 : l.any (fun p => p.1 == k) = false := by
      revert h; cases l.any (fun p => p.1 == k) <;> simp
    simp only [h2, Bool.false_eq_true, if_false, jsFieldOpt, find_append_set l k v h2]
    rfl

/-- C10: only the first element of `trade_decisions` is ever examined:
(1) each run makes at most one quote and at most one swap call; (2) the
calls made are unchanged under any replacement of the elements after the
first; (3) when an updated decision is returned, the elements after the
first are returned untouched — no rationale but the first element's is
annotated. -/
theorem c10_only_first_decision_examined :
    (∀ (decision : Json) (quote : QuoteArgs → QuoteRes) (swap : SwapArgs → SwapRes),
      (runTrade decision quote swap).2.countP isQuoteCall ≤ 1 ∧
      (runTrade decision quote swap).2.countP isSwapCall ≤ 1) ∧
    (∀ (decision first : Json) (rest rest2 : List Json)
        (quote : QuoteArgs → QuoteRes) (swap : SwapArgs → SwapRes),
      jsFieldOpt (some decision) "trade_decisions" = some (.arr (first :: rest)) →
      (runTrade (setObjField decision "trade_decisions" (.arr (first :: rest2)))
          quote swap).2 =
        (runTrade decision quote swap).2) ∧
    (∀ (decision first : Json) (rest : List Json)
        (quote : QuoteArgs → QuoteRes) (swap : SwapArgs → SwapRes) (out : Json),
      jsFieldOpt (some decision) "trade_decisions" = some (.arr (first :: rest)) →
      (runTrade decision quote swap).1 = some out →
      ∃ first2, jsFieldOpt (some out) "trade_decisions" = some (.arr (first2 :: rest))) := by
  refine ⟨?_, ?_, ?_⟩
  · intro decision quote swap
    rcases runTrade_trace_shape decision quote swap with h | ⟨qa, h⟩ | ⟨qa, sa, h⟩ <;>
      simp [h, List.countP_cons, isQuoteCall, isSwapCall]
  · intro decision first rest rest2 quote swap h
    obtain ⟨l, rfl⟩ : ∃ l, decision = .obj l := by
      cases decision
      case obj l => exact ⟨l, rfl⟩
      all_goals simp [jsFieldOpt] at h
    rw [runTrade_trace_spec, runTrade_trace_spec]
    congr 1
    rw [jsFieldOpt_setObjField, h]
    simp [jsIndexOpt]
  · intro decision first rest quote swap out h hout
    obtain ⟨l, rfl⟩ : ∃ l, decision = .obj l := by
      cases decision
      case obj l => exact ⟨l, rfl⟩
      all_goals simp [jsFieldOpt] at h
    rcases runTrade_output_shape (.obj l) quote swap with h0 | ⟨r, hsome⟩
    · rw [h0] at hout; cases hout
    · rw [hsome] at hout
      have hout2 : setFirstRationale (.obj l) r = out := by
        injection hout
      have hsf : setFirstRationale (.obj l) r =
          setObjField (.obj l) "trade_decisions"
            (.arr (setObjField first "rationale" (.str r) :: rest)) := by
        simp [setFirstRationale, h]
      refine ⟨setObjField first "rationale" (.str r), ?_⟩
      rw [← hout2, hsf, jsFieldOpt_setObjField]

/-- Witness for C10: dropping the second (BUY) element of `c10Dec` leaves
the call trace unchanged. -/
theorem c10_only_first_decision_examined_witness :
    (runTrade (setObjField c10Dec "trade_decisions"
        (.arr [.obj [("action", .str "HOLD")]])) c6Quote c6Swap).2 =
      (runTrade c10Dec c6Quote c6Swap).2 :=
  c10_only_first_decision_examined.2.1 c10Dec (.obj [("action", .str "HOLD")])
    [.obj [("action", .str "BUY"), ("amount_usd", .num 50), ("token", .str "AERO")]]
    [] c6Quote c6Swap rfl

/-- Witness for C8 (amended): a system entry followed by a trailing
text-only assistant entry, in a conversation with no tool calls, emits the
plain assistant message. -/
theorem c8_passthrough_and_trailing_text_witness :
    convertPromptToMessages ([PromptPart.system "s"] ++ [.assistant [.text "hi"]]) =
      convertPromptToMessages [PromptPart.system "s"] ++
        [⟨"assistant", some "hi", [], none⟩] :=
  c8_passthrough_and_trailing_text.2 [.system "s"] "hi" (by decide) (by decide)
